import Mathlib

/-!
Verification of the GAN training loop in `src/train.py` of
deep-convolution-audio-generation.

Embedding conventions:
* A batch tensor is `Tensor := List (List ℝ)` — the outer list is the batch
  dimension (`size(0)`), each sample is flattened to a `List ℝ`; elementwise
  tensor operations act on the flattened data (`List.flatten`).
* Label tensors (`torch.ones(batch_size, 1)` etc.) are `List ℝ` of length
  `batch_size`.
* Machine floats are modelled by the exact reals ℝ; `torch.rand_like`
  produces values in `[0, 1)`, modelled by an explicit noise argument with
  that bound as a hypothesis.
* Python runtime errors (index error on an empty tensor, ZeroDivisionError)
  are modelled by `Option`/`none`.
* The networks, the criterion, the optimizers and the schedulers are opaque
  to the loop; they appear as function parameters resp. an abstract state.
-/

/-- A batch tensor: batch dimension × flattened sample data. -/
def Tensor : Type := List (List ℝ)

/-- `torch.mean` of a (flattened) tensor: sum divided by element count. -/
noncomputable def tmean (l : List ℝ) : ℝ := l.sum / l.length

/-- `torch.norm(·, p=2)`: square root of the sum of squares of all elements. -/
noncomputable def l2norm (l : List ℝ) : ℝ := Real.sqrt ((l.map (fun x => x ^ 2)).sum)

/-- `smooth_labels` (train.py lines 17-23).  `tensor[0]` raises an index
error on an empty tensor, modelled by `none`; the freshly drawn
`torch.rand_like(tensor)` is the explicit `noise` argument. -/
noncomputable def smooth_labels (tensor noise : List ℝ) : Option (List ℝ) :=
  match tensor with
  | [] => none
  | t0 :: _ =>
    if t0 = 1 then
      some (List.zipWith (fun a r => a + 0.02 * r) tensor noise)
    else
      some (List.zipWith (fun a r => a - 0.02 * r) tensor noise)

/-- `calculate_spectral_diff` (train.py lines 34-37):
`torch.mean(torch.abs(real - fake))`; the second `torch.mean` in the source
is applied to an already 0-dimensional tensor and is the identity. -/
noncomputable def calculate_spectral_diff (real_audio_data fake_audio_data : Tensor) : ℝ :=
  tmean (List.zipWith (fun a b => |a - b|) real_audio_data.flatten fake_audio_data.flatten)

/-- `calculate_spectral_convergence` (train.py lines 40-43):
`norm(fake - real, p=2) / (norm(real, p=2) + 1e-8)`. -/
noncomputable def calculate_spectral_convergence (real_audio_data fake_audio_data : Tensor) : ℝ :=
  l2norm (List.zipWith (fun a b => a - b) fake_audio_data.flatten real_audio_data.flatten) /
    (l2norm real_audio_data.flatten + 1e-8)

/-- `compute_discrim_loss` (train.py lines 46-66).  `criterion` and
`discriminator` are opaque; `.view(-1, 1)` only reshapes and is the identity
on the flattened per-sample outputs. -/
noncomputable def compute_discrim_loss
    (criterion : List ℝ → List ℝ → ℝ) (discriminator : Tensor → List ℝ)
    (real_audio_data fake_audio_data : Tensor)
    (real_labels fake_labels : List ℝ) : ℝ :=
  let real_loss := criterion (discriminator real_audio_data) real_labels
  let fake_loss := criterion (discriminator fake_audio_data) fake_labels
  let d_adv_loss := (real_loss + fake_loss) / 2
  let spectral_diff := 0.2 * calculate_spectral_diff real_audio_data fake_audio_data
  let spectral_convergence :=
    0.1 * calculate_spectral_convergence real_audio_data fake_audio_data
  d_adv_loss + spectral_diff + spectral_convergence

/-- Which label tensor a label-construction step builds. -/
inductive LabelKind where
  | real
  | fake
deriving DecidableEq

/-- A reference to the fake batch of a given batch iteration, either as
produced by the generator or after `.detach()`. -/
inductive FakeRef where
  | generated (iter : Nat)
  | detachedOf (iter : Nat)
deriving DecidableEq

/-- Observable steps of one batch iteration of `train_epoch` / `validate`,
in source order. -/
inductive TEvent where
  | smoothCall (kind : LabelKind)
  | constLabels (kind : LabelKind)
  | gZeroGrad
  | sampleLatent
  | genForward (iter : Nat)
  | gLossForward
  | gBackward (retainGraph : Bool)
  | gOptimStep
  | gSchedStep
  | dZeroGrad
  | detachFake (iter : Nat)
  | dLossCall (fakeInput : FakeRef)
  | dBackward
  | dOptimStep
  | dSchedStep
deriving DecidableEq

/-- The ordered steps of batch iteration `i` of `train_epoch`
(train.py lines 87-123). -/
def trainBatchTrace (i : Nat) : List TEvent :=
  [TEvent.smoothCall LabelKind.real,
   TEvent.smoothCall LabelKind.fake,
   TEvent.gZeroGrad,
   TEvent.sampleLatent,
   TEvent.genForward i,
   TEvent.gLossForward,
   TEvent.gBackward true,
   TEvent.gOptimStep,
   TEvent.gSchedStep,
   TEvent.dZeroGrad,
   TEvent.detachFake i,
   TEvent.dLossCall (FakeRef.detachedOf i),
   TEvent.dBackward,
   TEvent.dOptimStep,
   TEvent.dSchedStep]

/-- The ordered steps of batch iteration `i` of `validate`
(train.py lines 134-154). -/
def valBatchTrace (i : Nat) : List TEvent :=
  [TEvent.constLabels LabelKind.real,
   TEvent.constLabels LabelKind.fake,
   TEvent.sampleLatent,
   TEvent.genForward i,
   TEvent.gLossForward,
   TEvent.dLossCall (FakeRef.generated i)]

/-- Steps belonging to the generator update of C3: zeroing generator
gradients, generator backward pass, generator optimizer and scheduler
steps. -/
def isGenUpdateEvent : TEvent → Bool
  | TEvent.gZeroGrad => true
  | TEvent.gBackward _ => true
  | TEvent.gOptimStep => true
  | TEvent.gSchedStep => true
  | _ => false

/-- Steps belonging to the discriminator update of C3: zeroing
discriminator gradients, detaching the fake batch, the composed loss call,
discriminator backward pass, optimizer and scheduler steps. -/
def isDiscUpdateEvent : TEvent → Bool
  | TEvent.dZeroGrad => true
  | TEvent.detachFake _ => true
  | TEvent.dLossCall _ => true
  | TEvent.dBackward => true
  | TEvent.dOptimStep => true
  | TEvent.dSchedStep => true
  | _ => false

/-- Steps that touch gradients or mutate parameters/schedules: zeroing
gradients, backward passes, optimizer steps, scheduler steps. -/
def isGradOrStepEvent : TEvent → Bool
  | TEvent.gZeroGrad => true
  | TEvent.gBackward _ => true
  | TEvent.gOptimStep => true
  | TEvent.gSchedStep => true
  | TEvent.dZeroGrad => true
  | TEvent.dBackward => true
  | TEvent.dOptimStep => true
  | TEvent.dSchedStep => true
  | _ => false

/-- Label-smoothing steps. -/
def isSmoothEvent : TEvent → Bool
  | TEvent.smoothCall _ => true
  | _ => false

/-- The accumulation loop of `train_epoch` (train.py lines 86-123): running
generator/discriminator loss totals, threading the mutable training state
(networks, optimizers, schedulers) through `batchStep`. -/
noncomputable def trainLoop {S : Type} (batchStep : S → Tensor → ℝ × ℝ × S) :
    ℝ → ℝ → S → List Tensor → ℝ × ℝ
  | g, d, _, [] => (g, d)
  | g, d, s, b :: rest =>
    trainLoop batchStep (g + (batchStep s b).1) (d + (batchStep s b).2.1)
      (batchStep s b).2.2 rest

/-- `train_epoch` (train.py lines 70-125).  The body of the batch loop
(lines 87-123: label smoothing, generator update, discriminator update)
mutates the networks, optimizers and schedulers through autograd and is
abstracted as `batchStep`, mapping the current training state and the real
batch to `(g_loss.item(), d_loss.item(), updated state)`.  Line 125 divides
both totals by `len(dataloader)`, raising `ZeroDivisionError` (modelled as
`none`) on an empty dataloader. -/
noncomputable def train_epoch {S : Type} (batchStep : S → Tensor → ℝ × ℝ × S)
    (s0 : S) (dataloader : List Tensor) : Option (ℝ × ℝ) :=
  let totals := trainLoop batchStep 0 0 s0 dataloader
  if dataloader.length = 0 then none
  else some (totals.1 / dataloader.length, totals.2 / dataloader.length)

/-- The per-batch `(g_loss, d_loss)` pairs produced by the batch loop of
`train_epoch` in order. -/
def batchLosses {S : Type} (batchStep : S → Tensor → ℝ × ℝ × S) :
    S → List Tensor → List (ℝ × ℝ)
  | _, [] => []
  | s, b :: rest =>
    ((batchStep s b).1, (batchStep s b).2.1) ::
      batchLosses batchStep (batchStep s b).2.2 rest

/-- The accumulation loop of `validate` (train.py lines 134-154): per batch,
constant labels `torch.ones/zeros(batch_size, 1)`, a generator forward pass
on the drawn latent batch, the generator adversarial loss and the composed
discriminator loss, all under `torch.no_grad()` with no parameter update. -/
noncomputable def valLoop (gen : Tensor → Tensor) (disc : Tensor → List ℝ)
    (criterion : List ℝ → List ℝ → ℝ) :
    ℝ → ℝ → List (Tensor × Tensor) → ℝ × ℝ
  | g, d, [] => (g, d)
  | g, d, p :: rest =>
    let batch_size := p.1.length
    let real_labels := List.replicate batch_size (1 : ℝ)
    let fake_labels := List.replicate batch_size (0 : ℝ)
    let fake_audio_data := gen p.2
    let g_loss := criterion (disc fake_audio_data) real_labels
    let d_loss := compute_discrim_loss criterion disc p.1 fake_audio_data
      real_labels fake_labels
    valLoop gen disc criterion (g + g_loss) (d + d_loss) rest

/-- `validate` (train.py lines 128-156).  `data` pairs each real batch with
the latent batch drawn for it at line 141; the networks and the criterion
are frozen (`eval()` mode, `torch.no_grad()`), so they appear as plain
functions.  Division by `len(dataloader)` at line 156 raises
`ZeroDivisionError` (modelled as `none`) on an empty dataloader. -/
noncomputable def validate (gen : Tensor → Tensor) (disc : Tensor → List ℝ)
    (criterion : List ℝ → List ℝ → ℝ) (data : List (Tensor × Tensor)) :
    Option (ℝ × ℝ) :=
  let totals := valLoop gen disc criterion 0 0 data
  if data.length = 0 then none
  else some (totals.1 / data.length, totals.2 / data.length)

/-- `N_EPOCHS` (train.py line 11). -/
def N_EPOCHS : Nat := 2

/-- `VALIDATION_INTERVAL = int(N_EPOCHS / N_EPOCHS)` (train.py line 12). -/
def VALIDATION_INTERVAL : Nat := N_EPOCHS / N_EPOCHS

/-- `SAVE_INTERVAL = int(N_EPOCHS / 1)` (train.py line 13). -/
def SAVE_INTERVAL : Nat := N_EPOCHS / 1

/-- The two networks of the run, as checkpoint-store keys. -/
inductive NetRef where
  | generator
  | discriminator
deriving DecidableEq

/-- The checkpoint saves performed by `training_loop` (train.py lines
172-211): in each epoch of `range(N_EPOCHS)`, after training and optional
validation, `save_model(generator, "DCGAN")` runs iff
`(epoch + 1) % SAVE_INTERVAL == 0`; `save_model` is only ever called on the
generator with the fixed tag `"DCGAN"`.  Each event records
`(epoch index, saved network, tag)`. -/
def trainingLoopSaveEvents : List (Nat × NetRef × String) :=
  (List.range N_EPOCHS).filterMap fun epoch =>
    if (epoch + 1) % SAVE_INTERVAL = 0 then
      some (epoch, NetRef.generator, "DCGAN")
    else none

/-- Replay a list of save events against an abstract checkpoint store keyed
by network; `upd` computes the stored artifact from a save event. -/
def applySaves {α : Type} (upd : Nat × NetRef × String → α)
    (store : NetRef → α) (events : List (Nat × NetRef × String)) :
    NetRef → α :=
  events.foldl (fun st ev => fun n => if n = ev.2.1 then upd ev else st n) store

/-- Helper: every element of a `zipWith` comes from a pair of elements of the
two input lists. -/
theorem mem_zipWith_elim {α β γ : Type} {f : α → β → γ} {l₁ : List α} {l₂ : List β}
    {y : γ} (hy : y ∈ List.zipWith f l₁ l₂) :
    ∃ a ∈ l₁, ∃ b ∈ l₂, y = f a b := by
  induction l₁ generalizing l₂ with
  | nil => simp at hy
  | cons a t ih =>
    cases l₂ with
    | nil => simp at hy
    | cons b t₂ =>
      simp only [List.zipWith_cons_cons, List.mem_cons] at hy
      rcases hy with h | h
      · exact ⟨a, List.mem_cons_self a t, b, List.mem_cons_self b t₂, h⟩
      · rcases ih h with ⟨a', ha', b', hb', hy'⟩
        exact ⟨a', List.mem_cons_of_mem a ha', b', List.mem_cons_of_mem b hb', hy'⟩

/-- C1: `compute_discrim_loss` returns exactly the adversarial average plus
`0.2 ·` (mean absolute elementwise difference) plus `0.1 ·` (L2 norm of
`fake - real` divided by the L2 norm of `real` plus `1e-8`), for every pair
of real/fake batches of equal batch size and every pair of label tensors. -/
theorem compute_discrim_loss_composition
    (criterion : List ℝ → List ℝ → ℝ) (discriminator : Tensor → List ℝ)
    (real_audio_data fake_audio_data : Tensor) (real_labels fake_labels : List ℝ)
    (hbatch : real_audio_data.length = fake_audio_data.length) :
    compute_discrim_loss criterion discriminator real_audio_data fake_audio_data
        real_labels fake_labels =
      (criterion (discriminator real_audio_data) real_labels +
          criterion (discriminator fake_audio_data) fake_labels) / 2 +
        0.2 * tmean (List.zipWith (fun a b => |a - b|)
          real_audio_data.flatten fake_audio_data.flatten) +
        0.1 * (l2norm (List.zipWith (fun a b => a - b)
            fake_audio_data.flatten real_audio_data.flatten) /
          (l2norm real_audio_data.flatten + 1e-8)) := by
  rfl

/-- Witness for C1 at concrete inputs. -/
theorem compute_discrim_loss_composition_witness :
    compute_discrim_loss (fun _ _ => 0) (fun _ => []) [[1]] [[0]] [1] [0] =
      ((fun (_ _ : List ℝ) => (0 : ℝ)) [] [1] +
          (fun (_ _ : List ℝ) => (0 : ℝ)) [] [0]) / 2 +
        0.2 * tmean (List.zipWith (fun a b => |a - b|)
          (List.flatten ([[1]] : Tensor)) (List.flatten ([[0]] : Tensor))) +
        0.1 * (l2norm (List.zipWith (fun a b => a - b)
            (List.flatten ([[0]] : Tensor)) (List.flatten ([[1]] : Tensor))) /
          (l2norm (List.flatten ([[1]] : Tensor)) + 1e-8)) :=
  compute_discrim_loss_composition (fun _ _ => 0) (fun _ => []) [[1]] [[0]] [1] [0] rfl

/-- C5: spectral convergence of a tensor with itself is `0`, and the
denominator `l2norm real + 1e-8` is strictly positive for every input, even
an all-zero tensor. -/
theorem calculate_spectral_convergence_self (x real_audio_data : Tensor) :
    calculate_spectral_convergence x x = 0 ∧
      0 < l2norm real_audio_data.flatten + 1e-8 := by
  constructor
  · unfold calculate_spectral_convergence
    have hz : List.zipWith (fun a b => a - b) x.flatten x.flatten =
        x.flatten.map (fun a => a - a) := List.zipWith_same _ _
    rw [hz]
    have hnum : l2norm (x.flatten.map (fun a => a - a)) = 0 := by
      unfold l2norm
      have hsum : ∀ l : List ℝ, ((l.map (fun a => a - a)).map (fun y => y ^ 2)).sum = 0 := by
        intro l
        induction l with
        | nil => simp
        | cons a t ih => simp [ih]
      rw [hsum, Real.sqrt_zero]
    rw [hnum, zero_div]
  · have h1 : 0 ≤ l2norm real_audio_data.flatten := Real.sqrt_nonneg _
    have h2 : (0 : ℝ) < 1e-8 := by norm_num
    linarith

/-- C2: on a homogeneous nonempty label tensor with fresh uniform noise in
`[0, 1)`, `smooth_labels` adds `0.02`-scaled noise when every entry is `1`
(so every output is at least `1`, in particular never below `1 - 0.02`),
subtracts it when every entry is `0` (so every output is at most `0`), and
the add-versus-subtract dispatch inspects only element `0` of the tensor. -/
theorem smooth_labels_homogeneous
    (tensor noise : List ℝ)
    (hnoise : ∀ r ∈ noise, 0 ≤ r ∧ r < 1)
    (hlen : noise.length = tensor.length)
    (hne : tensor ≠ []) :
    ((∀ x ∈ tensor, x = 1) →
      smooth_labels tensor noise =
        some (List.zipWith (fun a r => a + 0.02 * r) tensor noise) ∧
      ∀ out, smooth_labels tensor noise = some out → ∀ y ∈ out, 1 ≤ y) ∧
    ((∀ x ∈ tensor, x = 0) →
      smooth_labels tensor noise =
        some (List.zipWith (fun a r => a - 0.02 * r) tensor noise) ∧
      ∀ out, smooth_labels tensor noise = some out → ∀ y ∈ out, y ≤ 0) ∧
    (∀ a t, smooth_labels (a :: t) noise =
      if a = 1 then some (List.zipWith (fun x r => x + 0.02 * r) (a :: t) noise)
      else some (List.zipWith (fun x r => x - 0.02 * r) (a :: t) noise)) := by
  obtain ⟨t0, rest, rfl⟩ := List.exists_cons_of_ne_nil hne
  refine ⟨?_, ?_, ?_⟩
  · intro hones
    have h0 : t0 = 1 := hones t0 (List.mem_cons_self _ _)
    subst h0
    have heq : smooth_labels (1 :: rest) noise =
        some (List.zipWith (fun a r => a + 0.02 * r) (1 :: rest) noise) := by
      simp [smooth_labels]
    refine ⟨heq, ?_⟩
    intro out hout y hy
    rw [heq] at hout
    rcases Option.some.inj hout with rfl
    obtain ⟨a, ha, r, hr, rfl⟩ := mem_zipWith_elim hy
    have ha1 : a = 1 := hones a ha
    have hr0 : 0 ≤ r := (hnoise r hr).1
    rw [ha1]
    nlinarith
  · intro hzeros
    have h0 : t0 = 0 := hzeros t0 (List.mem_cons_self _ _)
    subst h0
    have heq : smooth_labels (0 :: rest) noise =
        some (List.zipWith (fun a r => a - 0.02 * r) (0 :: rest) noise) := by
      norm_num [smooth_labels]
    refine ⟨heq, ?_⟩
    intro out hout y hy
    rw [heq] at hout
    rcases Option.some.inj hout with rfl
    obtain ⟨a, ha, r, hr, rfl⟩ := mem_zipWith_elim hy
    have ha0 : a = 0 := hzeros a ha
    have hr0 : 0 ≤ r := (hnoise r hr).1
    rw [ha0]
    nlinarith
  · intro a t
    by_cases ha : a = 1 <;> simp [smooth_labels, ha]

/-- Witness for C2 at the concrete tensor `[1]` with noise `[0]`. -/
theorem smooth_labels_homogeneous_witness :
    smooth_labels [(1 : ℝ)] [0] =
      some (List.zipWith (fun a r => a + 0.02 * r) [(1 : ℝ)] [0]) :=
  ((smooth_labels_homogeneous [(1 : ℝ)] [0] (by simp) rfl (by simp)).1
    (by simp)).1

/-- C9: `smooth_labels` fails (index error, modelled as `none`) on an empty
label tensor, and the label tensors built in `train_epoch`
(`torch.ones/zeros(batch_size, 1)`) make it succeed exactly when
`batch_size ≥ 1`. -/
theorem smooth_labels_requires_nonempty :
    (∀ noise : List ℝ, smooth_labels [] noise = none) ∧
    (∀ (batch_size : Nat) (noise : List ℝ),
      ((smooth_labels (List.replicate batch_size (1 : ℝ)) noise).isSome ↔
        1 ≤ batch_size) ∧
      ((smooth_labels (List.replicate batch_size (0 : ℝ)) noise).isSome ↔
        1 ≤ batch_size)) := by
  refine ⟨fun _ => rfl, ?_⟩
  intro batch_size noise
  cases batch_size with
  | zero => simp [smooth_labels]
  | succ n =>
    constructor
    · simp only [List.replicate_succ]
      norm_num [smooth_labels]
    · simp only [List.replicate_succ]
      norm_num [smooth_labels]

/-- Counterexample to C4: with the legitimate noise draw `1/2 ∈ [0, 1)`, the
smoothed real label produced in `train_epoch` for batch size `1` is
`1 + 0.02 · (1/2) = 1.01`, which lies outside `[0, 1]`. -/
theorem train_labels_outside_unit_interval :
    ∃ out, smooth_labels (List.replicate 1 (1 : ℝ)) [1 / 2] = some out ∧
      ∃ y ∈ out, ¬ (0 ≤ y ∧ y ≤ 1) := by
  refine ⟨[1 + 0.02 * (1 / 2)], ?_, 1 + 0.02 * (1 / 2), ?_, ?_⟩
  · simp [smooth_labels]
  · simp
  · norm_num

/-- C4 as amended: training real labels lie in `[1, 1 + 0.02)`, training
fake labels in `(-0.02, 0]` — both within `[-0.02, 1.02]` but not always in
`[0, 1]` — while validation labels are the exact constants `1` and `0` and do
lie in `[0, 1]`. -/
theorem train_val_label_ranges
    (batch_size : Nat) (noise : List ℝ)
    (hnoise : ∀ r ∈ noise, 0 ≤ r ∧ r < 1) :
    (∀ out, smooth_labels (List.replicate batch_size (1 : ℝ)) noise = some out →
      ∀ y ∈ out, 1 ≤ y ∧ y < 1 + 0.02) ∧
    (∀ out, smooth_labels (List.replicate batch_size (0 : ℝ)) noise = some out →
      ∀ y ∈ out, -0.02 < y ∧ y ≤ 0) ∧
    (∀ y ∈ List.replicate batch_size (1 : ℝ), 0 ≤ y ∧ y ≤ 1) ∧
    (∀ y ∈ List.replicate batch_size (0 : ℝ), 0 ≤ y ∧ y ≤ 1) := by
  refine ⟨?_, ?_, ?_, ?_⟩
  · intro out hout y hy
    cases batch_size with
    | zero => simp [smooth_labels] at hout
    | succ n =>
      rw [List.replicate_succ] at hout
      have heq : smooth_labels ((1 : ℝ) :: List.replicate n (1 : ℝ)) noise =
          some (List.zipWith (fun a r => a + 0.02 * r)
            ((1 : ℝ) :: List.replicate n (1 : ℝ)) noise) := by
        simp [smooth_labels]
      rw [heq] at hout
      rcases Option.some.inj hout with rfl
      obtain ⟨a, ha, r, hr, rfl⟩ := mem_zipWith_elim hy
      have ha1 : a = 1 := by
        rcases List.mem_cons.mp ha with h | h
        · exact h
        · exact List.eq_of_mem_replicate h
      obtain ⟨hr0, hr1⟩ := hnoise r hr
      rw [ha1]
      constructor <;> nlinarith
  · intro out hout y hy
    cases batch_size with
    | zero => simp [smooth_labels] at hout
    | succ n =>
      rw [List.replicate_succ] at hout
      have heq : smooth_labels ((0 : ℝ) :: List.replicate n (0 : ℝ)) noise =
          some (List.zipWith (fun a r => a - 0.02 * r)
            ((0 : ℝ) :: List.replicate n (0 : ℝ)) noise) := by
        norm_num [smooth_labels]
      rw [heq] at hout
      rcases Option.some.inj hout with rfl
      obtain ⟨a, ha, r, hr, rfl⟩ := mem_zipWith_elim hy
      have ha0 : a = 0 := by
        rcases List.mem_cons.mp ha with h | h
        · exact h
        · exact List.eq_of_mem_replicate h
      obtain ⟨hr0, hr1⟩ := hnoise r hr
      rw [ha0]
      constructor <;> nlinarith
  · intro y hy
    rw [List.eq_of_mem_replicate hy]
    norm_num
  · intro y hy
    rw [List.eq_of_mem_replicate hy]
    norm_num

/-- Witness for the amended C4 at batch size `1` with noise `[0]`. -/
theorem train_val_label_ranges_witness :
    smooth_labels (List.replicate 1 (1 : ℝ)) [0] = some [(1 : ℝ) + 0.02 * 0] ∧
      (1 ≤ (1 : ℝ) + 0.02 * 0 ∧ (1 : ℝ) + 0.02 * 0 < 1 + 0.02) := by
  have heq : smooth_labels (List.replicate 1 (1 : ℝ)) [0] =
      some [(1 : ℝ) + 0.02 * 0] := by
    simp [smooth_labels]
  exact ⟨heq,
    (train_val_label_ranges 1 [0] (by simp)).1 [(1 : ℝ) + 0.02 * 0] heq
      ((1 : ℝ) + 0.02 * 0) (by simp)⟩

/-- C3: in every batch iteration of `train_epoch`, no discriminator-update
step is ever followed by a generator-update step (the generator update
completes first), the single generator backward pass retains the
computation graph, and the fake batch handed to the composed discriminator
loss is the detached fake batch generated in that same iteration. -/
theorem train_batch_generator_before_discriminator (i : Nat) :
    List.Pairwise
      (fun a b => isDiscUpdateEvent a = true → isGenUpdateEvent b = false)
      (trainBatchTrace i) ∧
    TEvent.gBackward true ∈ trainBatchTrace i ∧
    (∀ b, TEvent.gBackward b ∈ trainBatchTrace i → b = true) ∧
    (∀ fr, TEvent.dLossCall fr ∈ trainBatchTrace i →
      fr = FakeRef.detachedOf i) ∧
    TEvent.dLossCall (FakeRef.detachedOf i) ∈ trainBatchTrace i := by
  refine ⟨?_, ?_, ?_, ?_, ?_⟩
  · simp [trainBatchTrace, List.pairwise_cons, isDiscUpdateEvent, isGenUpdateEvent]
  · simp [trainBatchTrace]
  · intro b hb
    simpa [trainBatchTrace] using hb
  · intro fr hfr
    simpa [trainBatchTrace] using hfr
  · simp [trainBatchTrace]

/-- Witness for C3 at batch iteration `0`. -/
theorem train_batch_generator_before_discriminator_witness :
    TEvent.gBackward true ∈ trainBatchTrace 0 ∧
      TEvent.dLossCall (FakeRef.detachedOf 0) ∈ trainBatchTrace 0 :=
  ⟨(train_batch_generator_before_discriminator 0).2.1,
   (train_batch_generator_before_discriminator 0).2.2.2.2⟩

/-- Helper: the training accumulation loop computes the running totals plus
the sums of the per-batch losses. -/
theorem trainLoop_eq_sums {S : Type} (batchStep : S → Tensor → ℝ × ℝ × S) :
    ∀ (dataloader : List Tensor) (g d : ℝ) (s : S),
      trainLoop batchStep g d s dataloader =
        (g + ((batchLosses batchStep s dataloader).map Prod.fst).sum,
         d + ((batchLosses batchStep s dataloader).map Prod.snd).sum) := by
  intro dataloader
  induction dataloader with
  | nil => intro g d s; simp [trainLoop, batchLosses]
  | cons b rest ih =>
    intro g d s
    rw [trainLoop, batchLosses, ih]
    simp only [List.map_cons, List.sum_cons, Prod.mk.injEq]
    constructor <;> ring

/-- C6: for a dataloader of `K ≥ 1` batches, `train_epoch` returns exactly
the pair (sum of the `K` per-batch generator losses divided by `K`, sum of
the `K` per-batch discriminator losses divided by `K`). -/
theorem train_epoch_mean_of_batch_losses {S : Type}
    (batchStep : S → Tensor → ℝ × ℝ × S) (s0 : S) (dataloader : List Tensor)
    (hK : 1 ≤ dataloader.length) :
    train_epoch batchStep s0 dataloader =
      some
        (((batchLosses batchStep s0 dataloader).map Prod.fst).sum /
            dataloader.length,
         ((batchLosses batchStep s0 dataloader).map Prod.snd).sum /
            dataloader.length) := by
  have hne : dataloader.length ≠ 0 := by omega
  unfold train_epoch
  rw [trainLoop_eq_sums, if_neg hne]
  simp

/-- Witness for C6 with one constant-loss batch. -/
theorem train_epoch_mean_of_batch_losses_witness :
    train_epoch (fun (_ : Unit) (_ : Tensor) => ((1 : ℝ), (2 : ℝ), ())) () [[]] =
      some
        (((batchLosses (fun (_ : Unit) (_ : Tensor) => ((1 : ℝ), (2 : ℝ), ())) ()
            [[]]).map Prod.fst).sum / ([[]] : List Tensor).length,
         ((batchLosses (fun (_ : Unit) (_ : Tensor) => ((1 : ℝ), (2 : ℝ), ())) ()
            [[]]).map Prod.snd).sum / ([[]] : List Tensor).length) :=
  train_epoch_mean_of_batch_losses
    (fun (_ : Unit) (_ : Tensor) => ((1 : ℝ), (2 : ℝ), ())) () [[]] (by decide)

/-- Helper: the validation accumulation loop computes the running totals
plus the sums of the per-batch validation losses. -/
theorem valLoop_eq_sums (gen : Tensor → Tensor) (disc : Tensor → List ℝ)
    (criterion : List ℝ → List ℝ → ℝ) :
    ∀ (data : List (Tensor × Tensor)) (g d : ℝ),
      valLoop gen disc criterion g d data =
        (g + (data.map (fun p =>
            criterion (disc (gen p.2)) (List.replicate p.1.length (1 : ℝ)))).sum,
         d + (data.map (fun p =>
            compute_discrim_loss criterion disc p.1 (gen p.2)
              (List.replicate p.1.length (1 : ℝ))
              (List.replicate p.1.length (0 : ℝ)))).sum) := by
  intro data
  induction data with
  | nil => intro g d; simp [valLoop]
  | cons p rest ih =>
    intro g d
    rw [valLoop]
    rw [ih]
    simp only [List.map_cons, List.sum_cons, Prod.mk.injEq]
    constructor <;> ring

/-- C7: `validate` computes, for every batch, the generator loss against
the exact constant all-ones label tensor and the discriminator loss through
the same `compute_discrim_loss` composition used in training, against the
exact constant all-ones/all-zeros label tensors, then averages; its batch
trace contains no label-smoothing step and no gradient/update step, while
the training batch trace does smooth both label tensors. -/
theorem validate_unsmoothed_no_grad
    (gen : Tensor → Tensor) (disc : Tensor → List ℝ)
    (criterion : List ℝ → List ℝ → ℝ) (data : List (Tensor × Tensor))
    (i : Nat) (hK : 1 ≤ data.length) :
    validate gen disc criterion data =
      some
        ((data.map (fun p =>
            criterion (disc (gen p.2)) (List.replicate p.1.length (1 : ℝ)))).sum /
            data.length,
         (data.map (fun p =>
            compute_discrim_loss criterion disc p.1 (gen p.2)
              (List.replicate p.1.length (1 : ℝ))
              (List.replicate p.1.length (0 : ℝ)))).sum / data.length) ∧
    (∀ e ∈ valBatchTrace i, isSmoothEvent e = false ∧ isGradOrStepEvent e = false) ∧
    (TEvent.smoothCall LabelKind.real ∈ trainBatchTrace i ∧
      TEvent.smoothCall LabelKind.fake ∈ trainBatchTrace i) := by
  refine ⟨?_, ?_, ?_, ?_⟩
  · have hne : data.length ≠ 0 := by omega
    unfold validate
    rw [valLoop_eq_sums, if_neg hne]
    simp
  · intro e he
    simp only [valBatchTrace, List.mem_cons, List.not_mem_nil, or_false] at he
    rcases he with rfl | rfl | rfl | rfl | rfl | rfl <;>
      exact ⟨rfl, rfl⟩
  · simp [trainBatchTrace]
  · simp [trainBatchTrace]

/-- Witness for C7 with one batch of one zero sample and a zero latent. -/
theorem validate_unsmoothed_no_grad_witness :
    validate (fun _ => [[0]]) (fun _ => [0]) (fun _ _ => 0) [([[0]], [[0]])] =
      some
        (([([[0]], [[0]])].map (fun (p : Tensor × Tensor) =>
            (fun (_ _ : List ℝ) => (0 : ℝ)) ((fun (_ : Tensor) => [(0 : ℝ)]) ((fun (_ : Tensor) => ([[0]] : Tensor)) p.2))
              (List.replicate p.1.length (1 : ℝ)))).sum /
            ([([[0]], [[0]])] : List (Tensor × Tensor)).length,
         (([([[0]], [[0]])] : List (Tensor × Tensor)).map (fun p =>
            compute_discrim_loss (fun _ _ => 0) (fun _ => [0]) p.1
              ((fun (_ : Tensor) => ([[0]] : Tensor)) p.2)
              (List.replicate p.1.length (1 : ℝ))
              (List.replicate p.1.length (0 : ℝ)))).sum /
            ([([[0]], [[0]])] : List (Tensor × Tensor)).length) :=
  (validate_unsmoothed_no_grad (fun _ => [[0]]) (fun _ => [0]) (fun _ _ => 0)
    [([[0]], [[0]])] 0 (by decide)).1

/-- C10: `train_epoch` and `validate` both divide the accumulated losses by
the dataloader length; on an empty dataloader each raises
`ZeroDivisionError` (modelled as `none`) instead of returning, and each
returns a value exactly when the dataloader yields at least one batch. -/
theorem epoch_mean_requires_nonempty_dataloader {S : Type}
    (batchStep : S → Tensor → ℝ × ℝ × S) (s0 : S)
    (gen : Tensor → Tensor) (disc : Tensor → List ℝ)
    (criterion : List ℝ → List ℝ → ℝ) :
    train_epoch batchStep s0 [] = none ∧
    validate gen disc criterion [] = none ∧
    (∀ dataloader : List Tensor,
      (train_epoch batchStep s0 dataloader).isSome ↔ 1 ≤ dataloader.length) ∧
    (∀ data : List (Tensor × Tensor),
      (validate gen disc criterion data).isSome ↔ 1 ≤ data.length) := by
  refine ⟨rfl, rfl, ?_, ?_⟩
  · intro dataloader
    cases dataloader with
    | nil => simp [train_epoch]
    | cons b rest => simp [train_epoch]
  · intro data
    cases data with
    | nil => simp [validate]
    | cons p rest => simp [validate]

/-- C8: `training_loop` saves exactly in the epochs where `(epoch + 1)` is
a multiple of `SAVE_INTERVAL`, always and only the generator under the
fixed tag `"DCGAN"`; replaying the run's save events against any checkpoint
store leaves the discriminator's entry unchanged. -/
theorem training_loop_saves_generator_only :
    (∀ (e : Nat) (n : NetRef) (t : String),
      (e, n, t) ∈ trainingLoopSaveEvents ↔
        (e < N_EPOCHS ∧ (e + 1) % SAVE_INTERVAL = 0 ∧
          n = NetRef.generator ∧ t = "DCGAN")) ∧
    (∀ (α : Type) (upd : Nat × NetRef × String → α) (store : NetRef → α),
      applySaves upd store trainingLoopSaveEvents NetRef.discriminator =
        store NetRef.discriminator) := by
  have hev : trainingLoopSaveEvents = [(1, NetRef.generator, "DCGAN")] := by
    rfl
  constructor
  · intro e n t
    rw [hev]
    constructor
    · intro h
      simp only [List.mem_singleton, Prod.mk.injEq] at h
      obtain ⟨he, hn, ht⟩ := h
      subst he; subst hn; subst ht
      refine ⟨by norm_num [N_EPOCHS], by norm_num [SAVE_INTERVAL, N_EPOCHS], rfl, rfl⟩
    · rintro ⟨he, hmod, rfl, rfl⟩
      simp only [N_EPOCHS] at he
      simp only [SAVE_INTERVAL, N_EPOCHS] at hmod
      have he1 : e = 1 := by omega
      subst he1
      simp
  · intro α upd store
    rw [hev]
    simp [applySaves]

/-- Witness for C8: the save at epoch index `1` (the second epoch) is in
the event list, and a concrete store keeps its discriminator entry. -/
theorem training_loop_saves_generator_only_witness :
    (1, NetRef.generator, "DCGAN") ∈ trainingLoopSaveEvents ∧
      applySaves (fun _ => true) (fun _ => false) trainingLoopSaveEvents
        NetRef.discriminator = false :=
  ⟨(training_loop_saves_generator_only.1 1 NetRef.generator "DCGAN").mpr
      ⟨by decide, by decide, rfl, rfl⟩,
   training_loop_saves_generator_only.2 Bool (fun _ => true) (fun _ => false)⟩
